import Mathlib

/-!
Shallow embedding of the redlite Python SDK client layer
(`sdks/redlite-python/src/redlite/client.py`, `sdks/redlite-python/src/redlite/_ffi.py`)
and of the oracle runner's command router
(`sdks/oracle/runners/python_runner.py`), together with theorems about the
dual-mode dispatch contract: mode selection at construction, the open/closed
lifecycle, value marshaling, argument reshaping, TTL sentinels and error
surfacing.

Conventions of the embedding:
- Python `bytes` values are `List Nat` (one entry per byte).
- Python exceptions are the error side of `Except PyError`.
- The native library (`libredlite_ffi`, written in Rust and not part of the
  reviewed sources) and the redis-py connection are modelled as an oracle
  `Backend` whose fields give the response of each backend entry point; the
  pending-error channel `redlite_last_error` is the `lastError` field.
- Each session operation returns the list of backend calls it performed
  (so that "no backend call is made" and "invokes the backend with these
  arguments" are statable) alongside its Python-level outcome.
-/

/-- Python exception values raised by the code under study. -/
inductive PyError where
  | redliteError (msg : String)
  | importError (msg : String)
  | valueError (msg : String)
  | notImplementedError (msg : String)
  | unicodeDecodeError
  | attributeError (attr : String)
deriving DecidableEq

instance {ε ρ : Type} [DecidableEq ε] [DecidableEq ρ] : DecidableEq (Except ε ρ) := fun a b =>
  match a, b with
  | .error x, .error y =>
    if h : x = y then .isTrue (by rw [h]) else .isFalse (fun hh => by cases hh; exact h rfl)
  | .ok x, .ok y =>
    if h : x = y then .isTrue (by rw [h]) else .isFalse (fun hh => by cases hh; exact h rfl)
  | .error _, .ok _ => .isFalse (fun hh => by cases hh)
  | .ok _, .error _ => .isFalse (fun hh => by cases hh)

/-- A Python `bytes` value: the list of its byte values. -/
abbrev Bytes := List Nat

/-- Embedding of Python `str.lower()` (command names are ASCII). -/
def pyLower (s : String) : String := ⟨s.data.map Char.toLower⟩

/-- Embedding of Python `str.startswith(p)`. -/
def pyStartsWith (s p : String) : Bool := p.data.isPrefixOf s.data

/-- UTF-8 encoding of one character, as in Python `str.encode("utf-8")`. -/
def utf8EncodeChar (c : Char) : List Nat :=
  let n := c.toNat
  if n < 0x80 then [n]
  else if n < 0x800 then [0xC0 + n / 64, 0x80 + n % 64]
  else if n < 0x10000 then [0xE0 + n / 4096, 0x80 + (n / 64) % 64, 0x80 + n % 64]
  else [0xF0 + n / 262144, 0x80 + (n / 4096) % 64, 0x80 + (n / 64) % 64, 0x80 + n % 64]

/-- Embedding of Python `s.encode("utf-8")`. -/
def utf8Encode (s : String) : List Nat := s.data.flatMap utf8EncodeChar

/-- Strict UTF-8 decoding of a byte list, as in Python `bytes.decode("utf-8")`:
rejects stray continuation bytes, overlong forms, surrogates and code points
above U+10FFFF; `none` models `UnicodeDecodeError`. -/
def utf8Decode : List Nat → Option (List Char)
  | [] => some []
  | b1 :: rest =>
    if b1 < 0x80 then
      match utf8Decode rest with
      | some cs => some (Char.ofNat b1 :: cs)
      | none => none
    else if b1 < 0xC2 then none
    else if b1 < 0xE0 then
      match rest with
      | b2 :: rest2 =>
        if 0x80 ≤ b2 ∧ b2 < 0xC0 then
          match utf8Decode rest2 with
          | some cs => some (Char.ofNat ((b1 - 0xC0) * 64 + (b2 - 0x80)) :: cs)
          | none => none
        else none
      | [] => none
    else if b1 < 0xF0 then
      match rest with
      | b2 :: b3 :: rest3 =>
        if ((if b1 = 0xE0 then 0xA0 else 0x80) ≤ b2
              ∧ b2 < (if b1 = 0xED then 0xA0 else 0xC0))
            ∧ (0x80 ≤ b3 ∧ b3 < 0xC0) then
          match utf8Decode rest3 with
          | some cs =>
            some (Char.ofNat ((b1 - 0xE0) * 4096 + (b2 - 0x80) * 64 + (b3 - 0x80)) :: cs)
          | none => none
        else none
      | _ => none
    else if b1 < 0xF5 then
      match rest with
      | b2 :: b3 :: b4 :: rest4 =>
        if ((if b1 = 0xF0 then 0x90 else 0x80) ≤ b2
              ∧ b2 < (if b1 = 0xF4 then 0x90 else 0xC0))
            ∧ (0x80 ≤ b3 ∧ b3 < 0xC0) ∧ (0x80 ≤ b4 ∧ b4 < 0xC0) then
          match utf8Decode rest4 with
          | some cs =>
            some (Char.ofNat
              ((b1 - 0xF0) * 262144 + (b2 - 0x80) * 4096 + (b3 - 0x80) * 64 + (b4 - 0x80)) :: cs)
          | none => none
        else none
      | _ => none
    else none

/-- Embedding of Python `b.decode("utf-8")` producing a `String`. -/
def pyDecodeUtf8 (b : Bytes) : Option String :=
  match utf8Decode b with
  | some cs => some ⟨cs⟩
  | none => none

/-- The host-level value shapes accepted by the SDK where the signature is
`Union[str, bytes, int, ...]` (`client.py`). -/
inductive PyValue where
  | str (s : String)
  | bytes (b : Bytes)
  | int (n : Int)
deriving DecidableEq

/-- Embedding of `Redlite._encode_value` (client.py lines 348-355): bytes pass
through, text is UTF-8 encoded, anything else is `str(value)` UTF-8 encoded. -/
def encode_value : PyValue → Bytes
  | .bytes b => b
  | .str s => utf8Encode s
  | .int n => utf8Encode (toString n)

/-- The C struct `RedliteBytes` (_ffi.py): a data pointer that may be NULL
(`none`) together with its length (the length of the list). -/
structure RedliteBytes where
  data : Option Bytes
deriving DecidableEq

/-- Embedding of `_ffi.bytes_to_python` (_ffi.py lines 236-242): a NULL data
pointer or a zero length both map to Python `None`. -/
def bytes_to_python (rb : RedliteBytes) : Option Bytes :=
  match rb.data with
  | none => none
  | some bs => if bs.length = 0 then none else some bs

/-- Embedding of `_ffi.check_error` (_ffi.py lines 226-233): raise
`RedliteError` with the pending message if `redlite_last_error` is non-NULL. -/
def check_error (lastError : Option String) : Except PyError Unit :=
  match lastError with
  | some msg => .error (.redliteError msg)
  | none => .ok ()

/-- One element built by `Redlite._make_bytes_array` (client.py lines 538-550):
a falsy (empty) bytes value becomes a NULL pointer with length 0. -/
def make_bytes_item (b : Bytes) : RedliteBytes :=
  if b.length = 0 then ⟨none⟩ else ⟨some b⟩

/-- Embedding of `Redlite._make_bytes_array` (client.py lines 538-550). -/
def make_bytes_array (bs : List Bytes) : List RedliteBytes := bs.map make_bytes_item

/-- The connection mode, `Redlite._mode` ("embedded" or "server"). -/
inductive Mode where
  | embedded
  | server
deriving DecidableEq

/-- The mutable state of a `Redlite` client object: its URL, mode, the FFI
handle `_handle` and the redis-py connection `_redis` (each `none` when the
Python attribute is `None`; handles are opaque and modelled as `Nat`). -/
structure Session where
  url : String
  mode : Mode
  handle : Option Nat
  redis : Option Nat
deriving DecidableEq

/-- A sorted-set mapping key, `Union[str, bytes]` in `Redlite.zadd`. -/
inductive ZKey where
  | str (s : String)
  | bytes (b : Bytes)
deriving DecidableEq

/-- View a `ZKey` as the `PyValue` handed to `_encode_value`. -/
def ZKey.toValue : ZKey → PyValue
  | .str s => .str s
  | .bytes b => .bytes b

/-- Python dict assignment `m[k] = v`: replace the value at the first (and in
a dict, only) matching key in place, keeping the original key object and its
insertion position; otherwise append at the end. -/
def dictInsert {κ β : Type} [DecidableEq κ] : List (κ × β) → κ → β → List (κ × β)
  | [], k, v => [(k, v)]
  | p :: rest, k, v => if p.1 = k then (p.1, v) :: rest else p :: dictInsert rest k v

/-- A Python dict built from a list of key/value pairs in order (later pairs
overwrite earlier ones, as with repeated `d[k] = v`). -/
def dictOf {κ β : Type} [DecidableEq κ] (l : List (κ × β)) : List (κ × β) :=
  l.foldl (fun m p => dictInsert m p.1 p.2) []

/-- Association-list lookup with decidable key equality (Python `d[k]`). -/
def lookupD {κ β : Type} [DecidableEq κ] : List (κ × β) → κ → Option β
  | [], _ => none
  | p :: rest, k => if p.1 = k then some p.2 else lookupD rest k

/-- Oracle for the two backends a session can own. The `e*` fields are the
responses of the embedded FFI entry points (`redlite_get`, `redlite_set`, ...)
together with the pending-error channel `lastError` (`redlite_last_error`);
the `s*` fields are the responses of the redis-py methods, which may raise. -/
structure Backend (α : Type) where
  eget : String → RedliteBytes
  eset : String → Bytes → Int → Int
  edel : List String → Int
  ehset : String → List String → List RedliteBytes → Int
  elpush : String → List RedliteBytes → Int
  ezadd : String → List (α × Bytes) → Int
  ettl : String → Int
  epttl : String → Int
  lastError : Option String
  sget : String → Except PyError (Option Bytes)
  sset : String → PyValue → Option Int → Option Int → Bool → Bool → Except PyError Bool
  sdel : List String → Except PyError Int
  shset : String → List (String × PyValue) → Except PyError Int
  slpush : String → List PyValue → Except PyError Int
  szadd : String → List (ZKey × α) → Except PyError Int
  sttl : String → Except PyError Int
  spttl : String → Except PyError Int

/-- A record of one backend invocation with the exact arguments handed over. -/
inductive Call (α : Type) where
  | eget (key : String)
  | eset (key : String) (value : Bytes) (ttl : Int)
  | edel (keys : List String)
  | ehset (key : String) (fields : List String) (values : List RedliteBytes)
  | elpush (key : String) (values : List RedliteBytes)
  | ezadd (key : String) (members : List (α × Bytes))
  | ettl (key : String)
  | epttl (key : String)
  | sget (key : String)
  | sset (key : String) (value : PyValue) (ex px : Option Int) (nx xx : Bool)
  | sdel (keys : List String)
  | shset (key : String) (mapping : List (String × PyValue))
  | slpush (key : String) (values : List PyValue)
  | szadd (key : String) (mapping : List (ZKey × α))
  | sttl (key : String)
  | spttl (key : String)
deriving DecidableEq

/-- The outcome of one session operation: the backend calls it performed, and
its Python-level result or raised exception. -/
abbrev OpResult (α ρ : Type) := List (Call α) × Except PyError ρ

namespace Redlite

/-- Embedding of `Redlite._check_open` (client.py lines 330-334). -/
def check_open (s : Session) : Except PyError Unit :=
  if s.mode = .embedded ∧ s.handle = none then .error (.redliteError "Database is closed")
  else if s.mode = .server ∧ s.redis = none then .error (.redliteError "Connection is closed")
  else .ok ()

/-- Embedding of `Redlite.close` (client.py lines 312-319). -/
def close (s : Session) : Session :=
  if s.mode = .embedded ∧ s.handle ≠ none then { s with handle := none }
  else if s.mode = .server ∧ s.redis ≠ none then { s with redis := none }
  else s

/-- The idiom `if result < 0: _ffi.check_error()` followed by `return result`,
shared by the status-returning embedded commands. -/
def neg_checked (result : Int) (lastError : Option String) : Except PyError Int :=
  if result < 0 then
    match check_error lastError with
    | .error e => .error e
    | .ok _ => .ok result
  else .ok result

/-- Embedding of `Redlite.get` (client.py lines 361-367). -/
def get {α : Type} (s : Session) (b : Backend α) (key : String) : OpResult α (Option Bytes) :=
  match check_open s with
  | .error e => ([], .error e)
  | .ok _ =>
    if s.mode = .server then ([.sget key], b.sget key)
    else ([.eget key], .ok (bytes_to_python (b.eget key)))

/-- The TTL argument computed by `Redlite.set` (client.py line 384):
`ex if ex is not None else (px // 1000 if px is not None else 0)`, with
Python floor division. -/
def setTtlArg (ex px : Option Int) : Int :=
  match ex with
  | some e => e
  | none =>
    match px with
    | some p => Int.fdiv p 1000
    | none => 0

/-- Embedding of `Redlite.set` (client.py lines 369-394). In embedded mode the
`nx`/`xx` flags are never read. -/
def set {α : Type} (s : Session) (b : Backend α) (key : String) (value : PyValue)
    (ex px : Option Int) (nx xx : Bool) : OpResult α Bool :=
  match check_open s with
  | .error e => ([], .error e)
  | .ok _ =>
    if s.mode = .server then ([.sset key value ex px nx xx], b.sset key value ex px nx xx)
    else
      let value_bytes := encode_value value
      let ttl := setTtlArg ex px
      let result := b.eset key value_bytes ttl
      ([.eset key value_bytes ttl], (neg_checked result b.lastError).map (fun r => r = 0))

/-- Embedding of `Redlite.delete` (client.py lines 552-563). -/
def delete {α : Type} (s : Session) (b : Backend α) (keys : List String) : OpResult α Int :=
  match check_open s with
  | .error e => ([], .error e)
  | .ok _ =>
    if keys.isEmpty then ([], .ok 0)
    else if s.mode = .server then ([.sdel keys], b.sdel keys)
    else ([.edel keys], neg_checked (b.edel keys) b.lastError)

/-- Embedding of `Redlite.hset` (client.py lines 727-750): merge `mapping` and
`kwargs` into one dict, bail out with 0 when empty, then in embedded mode
split the dict into a field-name array and an encoded-value array. -/
def hset {α : Type} (s : Session) (b : Backend α) (key : String)
    (mapping kwargs : List (String × PyValue)) : OpResult α Int :=
  match check_open s with
  | .error e => ([], .error e)
  | .ok _ =>
    let items := dictOf (mapping ++ kwargs)
    if items.isEmpty then ([], .ok 0)
    else if s.mode = .server then ([.shset key items], b.shset key items)
    else
      let fields := items.map (fun p => p.1)
      let values := make_bytes_array (items.map (fun p => encode_value p.2))
      ([.ehset key fields values], neg_checked (b.ehset key fields values) b.lastError)

/-- Embedding of `Redlite.lpush` (client.py lines 831-845). -/
def lpush {α : Type} (s : Session) (b : Backend α) (key : String)
    (values : List PyValue) : OpResult α Int :=
  match check_open s with
  | .error e => ([], .error e)
  | .ok _ =>
    if values.isEmpty then ([], .ok 0)
    else if s.mode = .server then ([.slpush key values], b.slpush key values)
    else
      let arr := make_bytes_array (values.map encode_value)
      ([.elpush key arr], neg_checked (b.elpush key arr) b.lastError)

/-- Embedding of `Redlite.zadd` (client.py lines 986-1016): merge `mapping`
and `kwargs`, bail out with 0 when empty, then in embedded mode build the
`RedliteZMember[]` array of (score, encoded member) pairs in dict order. -/
def zadd {α : Type} (s : Session) (b : Backend α) (key : String)
    (mapping : List (ZKey × α)) (kwargs : List (String × α)) : OpResult α Int :=
  match check_open s with
  | .error e => ([], .error e)
  | .ok _ =>
    let items := dictOf (mapping ++ kwargs.map (fun p => (ZKey.str p.1, p.2)))
    if items.isEmpty then ([], .ok 0)
    else if s.mode = .server then ([.szadd key items], b.szadd key items)
    else
      let members := items.map (fun p => (p.2, encode_value p.1.toValue))
      ([.ezadd key members], neg_checked (b.ezadd key members) b.lastError)

/-- Embedding of `Redlite.ttl` (client.py lines 591-599): the backend value is
returned unchanged, except that the code -3 triggers `check_error`. -/
def ttl {α : Type} (s : Session) (b : Backend α) (key : String) : OpResult α Int :=
  match check_open s with
  | .error e => ([], .error e)
  | .ok _ =>
    if s.mode = .server then ([.sttl key], b.sttl key)
    else
      let result := b.ettl key
      ([.ettl key],
        if result = -3 then
          match check_error b.lastError with
          | .error e => .error e
          | .ok _ => .ok result
        else .ok result)

/-- Embedding of `Redlite.pttl` (client.py lines 601-609). -/
def pttl {α : Type} (s : Session) (b : Backend α) (key : String) : OpResult α Int :=
  match check_open s with
  | .error e => ([], .error e)
  | .ok _ =>
    if s.mode = .server then ([.spttl key], b.spttl key)
    else
      let result := b.epttl key
      ([.epttl key],
        if result = -3 then
          match check_error b.lastError with
          | .error e => .error e
          | .ok _ => .ok result
        else .ok result)

end Redlite

/-- Oracle for the construction-time collaborators of `Redlite.__init__`:
whether `import redis` succeeds, the connection returned by `redis.from_url`,
the handles returned by `redlite_open_memory` / `redlite_open_with_cache`
(`none` models a NULL return), and the pending error message at that point. -/
structure OpenEnv where
  hasRedis : Bool
  fromUrl : String → Nat
  openMemory : Option Nat
  openWithCache : String → Int → Option Nat
  lastError : Option String

/-- Embedding of `Redlite.__init__` (client.py lines 232-285): classify the
connection string, open the corresponding backend, and fail construction with
an exception when the backend cannot be opened. -/
def Redlite.init (env : OpenEnv) (url : String) (cache_mb : Int) : Except PyError Session :=
  if pyStartsWith url "redis://" || pyStartsWith url "rediss://" then
    if env.hasRedis then
      .ok { url := url, mode := .server, handle := none, redis := some (env.fromUrl url) }
    else
      .error (.importError
        "Server mode requires redis-py. Install with: pip install redlite[redis]")
  else
    let handle := if url = ":memory:" then env.openMemory else env.openWithCache url cache_mb
    match handle with
    | none =>
      match check_error env.lastError with
      | .error e => .error e
      | .ok _ => .error (.redliteError "Failed to open database")
    | some h => .ok { url := url, mode := .embedded, handle := some h, redis := none }

/-- Whether the session is usable, exactly as `_check_open` decides it. -/
def Session.isOpen (s : Session) : Bool :=
  match Redlite.check_open s with
  | .ok _ => true
  | .error _ => false

/-- Whether the backend handle owned for the session's mode is present. -/
def Session.backendPresent (s : Session) : Bool :=
  match s.mode with
  | .embedded => s.handle.isSome
  | .server => s.redis.isSome

/-- The session states reachable through the Python object's lifecycle:
produced by a successful `__init__`, then transformed only by `close` (no
command method assigns to `_mode`, `_handle` or `_redis`). -/
inductive Reachable : Session → Prop where
  | init (env : OpenEnv) (url : String) (cache_mb : Int) (s : Session)
      (h : Redlite.init env url cache_mb = .ok s) : Reachable s
  | close (s : Session) (h : Reachable s) : Reachable (Redlite.close s)

/-- A YAML test item in the list-of-pairs form of ZADD as the oracle runner
inspects it (`python_runner.py` lines 166-181): either a 2-element
`[score, member]` pair with a text or binary member, or anything else, which
the guard `isinstance(item, (list, tuple)) and len(item) == 2` skips. -/
inductive ZItem (α : Type) where
  | pair (score : α) (member : ZKey)
  | malformed
deriving DecidableEq

/-- The member normalization inside the runner's ZADD branch: a bytes member
is decoded to text via `member.decode("utf-8")` (which may raise
`UnicodeDecodeError`), a text member is used as is. -/
def decode_member (m : ZKey) : Except PyError ZKey :=
  match m with
  | .bytes b =>
    match pyDecodeUtf8 b with
    | some s => .ok (.str s)
    | none => .error .unicodeDecodeError
  | .str s => .ok (.str s)

/-- The mapping-building loop of the runner's ZADD branch (python_runner.py
lines 172-179), with the accumulated dict made explicit: for each well-formed
`[score, member]` pair, decode a bytes member to text and perform
`mapping[member] = score`. -/
def zaddReshapeAux {α : Type} (m : List (ZKey × α)) :
    List (ZItem α) → Except PyError (List (ZKey × α))
  | [] => .ok m
  | .malformed :: rest => zaddReshapeAux m rest
  | .pair score member :: rest =>
    match decode_member member with
    | .error e => .error e
    | .ok k => zaddReshapeAux (dictInsert m k score) rest

/-- The complete pair-list-to-mapping conversion of the runner's ZADD branch. -/
def zaddReshape {α : Type} (items : List (ZItem α)) : Except PyError (List (ZKey × α)) :=
  zaddReshapeAux [] items

/-- The runner's ZADD branch for `(key, list-of-[score, member])` arguments
(python_runner.py lines 166-180): build the mapping, then invoke
`db.zadd(key, mapping)` with no keyword arguments. -/
def runnerZadd {α : Type} (s : Session) (b : Backend α) (key : String)
    (items : List (ZItem α)) : OpResult α Int :=
  match zaddReshape items with
  | .error e => ([], .error e)
  | .ok mapping => Redlite.zadd s b key mapping []

/-- The branch of `_execute_cmd` that handles a recognized command. -/
inductive RouteTarget where
  | variadicKeys (cmd : String)
  | msetCmd
  | hsetCmd
  | hdelCmd
  | hmgetCmd
  | zaddCmd
  | zremCmd
  | setFamily (cmd : String)
  | pushFamily (cmd : String)
  | mapped (cmd : String)
deriving DecidableEq

/-- The attribute names defined on the `Redlite` class (client.py): its
command methods plus the lifecycle/helper members. The class defines no
`__getattr__`, so looking up any other name raises `AttributeError`. Note
that `mget`, `mset`, `hmget`, `hgetall`, `zrange` and `zrevrange` are NOT
defined. -/
def redliteAttrs : List String :=
  ["open", "connect", "mode", "close", "_check_open", "_execute", "_encode_value",
   "_make_string_array", "_make_bytes_array", "fts", "vector", "geo",
   "get", "set", "setex", "psetex", "getdel", "append", "strlen", "getrange",
   "setrange", "incr", "decr", "incrby", "decrby", "incrbyfloat",
   "delete", "exists", "type", "ttl", "pttl", "expire", "pexpire", "expireat",
   "pexpireat", "persist", "rename", "renamenx", "keys", "dbsize", "flushdb",
   "select", "hset", "hget", "hdel", "hexists", "hlen", "hkeys", "hvals",
   "hincrby", "lpush", "rpush", "lpop", "rpop", "llen", "lrange", "lindex",
   "sadd", "srem", "smembers", "sismember", "scard",
   "zadd", "zrem", "zscore", "zcard", "zcount", "zincrby",
   "vacuum", "version"]

/-- Python attribute lookup `db.<name>` on a `Redlite` object: returns the
bound attribute (represented by its name) when the class defines it, and
raises `AttributeError` carrying the missing name otherwise. -/
def pyGetattr (name : String) : Except PyError String :=
  if name ∈ redliteAttrs then .ok name
  else .error (.attributeError name)

/-- Eager left-to-right evaluation of a sequence of `db.<name>` attribute
accesses, as the values of a Python dict literal (or the expressions of a
branch body) are evaluated: the first missing attribute raises. -/
def evalAttrs : List String → Except PyError Unit
  | [] => .ok ()
  | n :: rest =>
    match pyGetattr n with
    | .error e => .error e
    | .ok _ => evalAttrs rest

/-- The keys of the `method_map` dict literal in `OracleRunner._execute_cmd`
(python_runner.py lines 215-270), in source order. Each key maps to the value
`db.<same name>`, and the dict literal evaluates those attribute accesses
eagerly when the dispatch reaches it. -/
def methodMapCmds : List String :=
  ["get", "set", "setex", "psetex", "getdel", "append", "strlen", "getrange",
   "setrange", "incr", "decr", "incrby", "decrby", "incrbyfloat",
   "type", "ttl", "pttl", "expire", "pexpire", "expireat", "pexpireat",
   "persist", "rename", "renamenx", "keys", "dbsize", "flushdb",
   "hget", "hexists", "hlen", "hkeys", "hvals", "hincrby", "hgetall",
   "lpop", "rpop", "llen", "lrange", "lindex",
   "smembers", "sismember", "scard",
   "zscore", "zcard", "zcount", "zincrby", "zrange", "zrevrange"]

/-- The command-name dispatch of `OracleRunner._execute_cmd`
(python_runner.py lines 108-276): lower-case the logical command name, try the
special-cased reshaping branches in source order, fall back to `method_map`,
and raise `ValueError("Unknown command: ...")` when nothing matches — but
every branch first performs the attribute accesses its body evaluates
eagerly: the del/exists/mget branch builds a dict touching `db.delete`,
`db.exists`, `db.mget`; the mset/hmget branches touch `db.mset`/`db.hmget`;
the sadd/srem and lpush/rpush branches touch the one method the conditional
expression selects; and reaching `method_map` evaluates `db.<name>` for every
key in source order before the membership test on line 272. -/
def routeCmd (cmdRaw : String) : Except PyError RouteTarget :=
  let cmd := pyLower cmdRaw
  if cmd = "del" ∨ cmd = "exists" ∨ cmd = "mget" then
    match evalAttrs ["delete", "exists", "mget"] with
    | .error e => .error e
    | .ok _ => .ok (.variadicKeys cmd)
  else if cmd = "mset" then
    match pyGetattr "mset" with
    | .error e => .error e
    | .ok _ => .ok .msetCmd
  else if cmd = "hset" then
    match pyGetattr "hset" with
    | .error e => .error e
    | .ok _ => .ok .hsetCmd
  else if cmd = "hdel" then
    match pyGetattr "hdel" with
    | .error e => .error e
    | .ok _ => .ok .hdelCmd
  else if cmd = "hmget" then
    match pyGetattr "hmget" with
    | .error e => .error e
    | .ok _ => .ok .hmgetCmd
  else if cmd = "zadd" then
    match pyGetattr "zadd" with
    | .error e => .error e
    | .ok _ => .ok .zaddCmd
  else if cmd = "zrem" then
    match pyGetattr "zrem" with
    | .error e => .error e
    | .ok _ => .ok .zremCmd
  else if cmd = "sadd" ∨ cmd = "srem" then
    match pyGetattr (if cmd = "sadd" then "sadd" else "srem") with
    | .error e => .error e
    | .ok _ => .ok (.setFamily cmd)
  else if cmd = "lpush" ∨ cmd = "rpush" then
    match pyGetattr (if cmd = "lpush" then "lpush" else "rpush") with
    | .error e => .error e
    | .ok _ => .ok (.pushFamily cmd)
  else
    match evalAttrs methodMapCmds with
    | .error e => .error e
    | .ok _ =>
      if cmd ∈ methodMapCmds then .ok (.mapped cmd)
      else .error (.valueError ("Unknown command: " ++ cmd))

/-- Modelled from the spec: the native engine command `redlite_ttl` /
`redlite_pttl`, whose Rust implementation is not part of the reviewed sources.
Per the spec, a key that does not exist reports the fixed sentinel -2, a key
with no expiry reports the fixed sentinel -1, and a present key with an expiry
reports the remaining time. The engine's key space is viewed as a finite map
from key to `none` (present, no expiry) or `some t` (present, expiring). -/
def ttlModel (db : List (String × Option Int)) (key : String) : Int :=
  match lookupD db key with
  | none => -2
  | some none => -1
  | some (some t) => t

/-- The score of the last well-formed `[score, member]` pair in the item list
whose decoded member equals `k`, or `none` if no pair writes `k`. This is the
"last writer wins" reading of the claim, stated independently of the dict
construction in the runner. -/
def lastPairScore {α : Type} : List (ZItem α) → ZKey → Option α
  | [], _ => none
  | it :: rest, k =>
    match lastPairScore rest k with
    | some v => some v
    | none =>
      match it with
      | .pair sc m => if decode_member m = .ok k then some sc else none
      | .malformed => none

theorem lookupD_dictInsert {κ β : Type} [DecidableEq κ] (m : List (κ × β)) (k k2 : κ) (v : β) :
    lookupD (dictInsert m k v) k2 = if k2 = k then some v else lookupD m k2 := by
  induction m with
  | nil =>
    by_cases h : k2 = k
    · subst h; simp [dictInsert, lookupD]
    · simp [dictInsert, lookupD, h, Ne.symm h]
  | cons p rest ih =>
    by_cases hpk : p.1 = k
    · subst hpk
      by_cases h : k2 = p.1
      · subst h; simp [dictInsert, lookupD]
      · simp [dictInsert, lookupD, h, Ne.symm h]
    · by_cases h : k2 = p.1
      · subst h
        simp [dictInsert, lookupD, hpk, fun hh => hpk hh]
      · simp [dictInsert, lookupD, hpk, Ne.symm h, h, ih]

theorem zaddReshapeAux_lookup {α : Type} (items : List (ZItem α)) :
    ∀ (m M : List (ZKey × α)), zaddReshapeAux m items = .ok M → ∀ k,
      lookupD M k = match lastPairScore items k with
                    | some v => some v
                    | none => lookupD m k := by
  induction items with
  | nil =>
    intro m M h k
    simp only [zaddReshapeAux, Except.ok.injEq] at h
    subst h
    simp [lastPairScore]
  | cons it rest ih =>
    intro m M h k
    cases it with
    | malformed =>
      simp only [zaddReshapeAux] at h
      have hrec := ih m M h k
      simp only [lastPairScore]
      cases hl : lastPairScore rest k <;> simp [hl] at hrec ⊢ <;> exact hrec
    | pair sc mem =>
      simp only [zaddReshapeAux] at h
      cases hd : decode_member mem with
      | error e => rw [hd] at h; cases h
      | ok kd =>
        rw [hd] at h
        have hrec := ih (dictInsert m kd sc) M h k
        simp only [lastPairScore, hd]
        cases hl : lastPairScore rest k with
        | some v => simp only [hl] at hrec ⊢; exact hrec
        | none =>
          simp only [hl] at hrec ⊢
          rw [hrec, lookupD_dictInsert]
          by_cases hk : kd = k
          · subst hk; simp
          · have hk2 : ¬ k = kd := fun hh => hk hh.symm
            have hk3 : ¬ (Except.ok kd : Except PyError ZKey) = Except.ok k :=
              fun hh => hk (Except.ok.inj hh)
            simp [hk2, hk3]

theorem dictInsert_key_mem {κ β : Type} [DecidableEq κ] (m : List (κ × β)) (k : κ) (v : β) :
    ∀ q ∈ dictInsert m k v, q.1 = k ∨ ∃ p ∈ m, q.1 = p.1 := by
  induction m with
  | nil =>
    intro q hq
    simp only [dictInsert, List.mem_singleton] at hq
    subst hq
    exact .inl rfl
  | cons p rest ih =>
    intro q hq
    simp only [dictInsert] at hq
    by_cases hpk : p.1 = k
    · rw [if_pos hpk] at hq
      rcases List.mem_cons.mp hq with he | hq2
      · subst he; exact .inr ⟨p, List.mem_cons_self _ _, rfl⟩
      · exact .inr ⟨q, List.mem_cons_of_mem _ hq2, rfl⟩
    · rw [if_neg hpk] at hq
      rcases List.mem_cons.mp hq with he | hq2
      · subst he; exact .inr ⟨q, List.mem_cons_self _ _, rfl⟩
      · rcases ih q hq2 with he | ⟨p2, hp2, he⟩
        · exact .inl he
        · exact .inr ⟨p2, List.mem_cons_of_mem _ hp2, he⟩

theorem decode_member_str (m k : ZKey) (h : decode_member m = .ok k) :
    ∃ t, k = ZKey.str t := by
  cases m with
  | str s =>
    simp only [decode_member, Except.ok.injEq] at h
    exact ⟨s, h.symm⟩
  | bytes b =>
    simp only [decode_member] at h
    cases hd : pyDecodeUtf8 b with
    | none => rw [hd] at h; cases h
    | some s => rw [hd] at h; exact ⟨s, (Except.ok.inj h).symm⟩

theorem zaddReshapeAux_keys {α : Type} (items : List (ZItem α)) :
    ∀ (m M : List (ZKey × α)), zaddReshapeAux m items = .ok M →
      (∀ p ∈ m, ∃ t, p.1 = ZKey.str t) → ∀ p ∈ M, ∃ t, p.1 = ZKey.str t := by
  induction items with
  | nil =>
    intro m M h hm
    simp only [zaddReshapeAux, Except.ok.injEq] at h
    subst h
    exact hm
  | cons it rest ih =>
    intro m M h hm
    cases it with
    | malformed => exact ih m M (by simpa [zaddReshapeAux] using h) hm
    | pair sc mem =>
      simp only [zaddReshapeAux] at h
      cases hd : decode_member mem with
      | error e => rw [hd] at h; cases h
      | ok kd =>
        rw [hd] at h
        refine ih _ M h ?_
        intro p hp
        rcases dictInsert_key_mem m kd sc p hp with he | ⟨p2, hp2, he⟩
        · obtain ⟨t, ht⟩ := decode_member_str mem kd hd
          exact ⟨t, he.trans ht⟩
        · obtain ⟨t, ht⟩ := hm p2 hp2
          exact ⟨t, he.trans ht⟩

/-- The closed-session message `_check_open` raises for each mode. -/
def closedMsg : Mode → String
  | .embedded => "Database is closed"
  | .server => "Connection is closed"

theorem check_open_isOpen (s : Session) (h : s.isOpen = true) :
    Redlite.check_open s = .ok () := by
  unfold Session.isOpen at h
  cases hc : Redlite.check_open s with
  | ok u => cases u; rfl
  | error e => rw [hc] at h; simp at h

theorem check_open_closed (s : Session) (h : s.isOpen = false) :
    Redlite.check_open s = .error (.redliteError (closedMsg s.mode)) := by
  obtain ⟨url, mode, handle, redis⟩ := s
  cases mode <;> cases handle <;> cases redis <;>
    simp_all [Session.isOpen, Redlite.check_open, closedMsg]

theorem isOpen_eq_backendPresent (s : Session) : s.isOpen = s.backendPresent := by
  obtain ⟨url, mode, handle, redis⟩ := s
  cases mode <;> cases handle <;> cases redis <;>
    simp [Session.isOpen, Session.backendPresent, Redlite.check_open]

theorem close_mode (s : Session) : (Redlite.close s).mode = s.mode := by
  unfold Redlite.close
  split_ifs <;> rfl

theorem reachable_not_both (s : Session) (h : Reachable s) :
    ¬(s.handle.isSome = true ∧ s.redis.isSome = true) := by
  induction h with
  | init env url cache s hinit =>
    simp only [Redlite.init] at hinit
    split at hinit
    · split at hinit
      · injection hinit with h2; subst h2; simp
      · cases hinit
    · split at hinit
      · split at hinit <;> cases hinit
      · injection hinit with h2; subst h2; simp
  | close s hR ih =>
    unfold Redlite.close
    split_ifs with h1 h2
    · simp
    · simp
    · exact ih

/-- A construction environment in which every backend opens successfully. -/
def testEnv : OpenEnv :=
  { hasRedis := true, fromUrl := fun _ => 7, openMemory := some 1,
    openWithCache := fun _ _ => some 2, lastError := none }

/-- An open embedded session, as produced by `Redlite(":memory:")`. -/
def openEmb : Session :=
  { url := ":memory:", mode := .embedded, handle := some 1, redis := none }

/-- A closed embedded session, as left behind by `close`. -/
def closedEmb : Session :=
  { url := ":memory:", mode := .embedded, handle := none, redis := none }

/-- A backend oracle with no pending error and successful status codes. -/
def baseBackend : Backend Int :=
  { eget := fun _ => ⟨none⟩, eset := fun _ _ _ => 0, edel := fun _ => 0,
    ehset := fun _ _ _ => 0, elpush := fun _ _ => 0, ezadd := fun _ _ => 0,
    ettl := fun _ => -1, epttl := fun _ => -1, lastError := none,
    sget := fun _ => .ok none, sset := fun _ _ _ _ _ _ => .ok true,
    sdel := fun _ => .ok 0, shset := fun _ _ => .ok 0, slpush := fun _ _ => .ok 0,
    szadd := fun _ _ => .ok 0, sttl := fun _ => .ok (-1), spttl := fun _ => .ok (-1) }

/-- A backend oracle in the state right after a failing embedded call: the
data-returning entry points return NULL, the status-returning ones return a
negative code, and `redlite_last_error` holds the failure message. -/
def errBackend : Backend Int :=
  { baseBackend with
    eset := fun _ _ _ => -1, edel := fun _ => -1, ehset := fun _ _ _ => -1,
    elpush := fun _ _ => -1, ezadd := fun _ _ => -1,
    ettl := fun _ => -3, epttl := fun _ => -3,
    lastError := some "WRONGTYPE Operation against a key holding the wrong kind of value" }

/-- C2 counterexample: the claim fails on the empty payload. Encoding the
empty bytes value gives an empty byte string, and `bytes_to_python` maps a
zero-length result to `None`, not back to the empty bytes value. -/
theorem claim_C2_counterexample :
    bytes_to_python ⟨some (encode_value (.bytes []))⟩ = none
    ∧ (none : Option Bytes) ≠ some [] := by
  constructor
  · rfl
  · intro h; cases h

/-- C2 (amended): for every nonempty binary payload — embedded null bytes and
multi-byte UTF-8 sequences included — encoding with `_encode_value` and
decoding the resulting byte string with `bytes_to_python` reproduces the
payload exactly; the empty payload instead decodes to the missing marker. -/
theorem claim_C2_amended (v : Bytes) :
    (v ≠ [] → bytes_to_python ⟨some (encode_value (.bytes v))⟩ = some v)
    ∧ (v = [] → bytes_to_python ⟨some (encode_value (.bytes v))⟩ = none) := by
  constructor
  · intro h
    simp [bytes_to_python, encode_value, List.length_eq_zero, h]
  · intro h
    subst h
    rfl

/-- C2 witness: the round trip at a payload with an embedded null byte and a
multi-byte UTF-8 sequence. -/
theorem claim_C2_amended_witness :
    bytes_to_python ⟨some (encode_value (.bytes [0, 195, 169]))⟩ = some [0, 195, 169] :=
  (claim_C2_amended [0, 195, 169]).1 (by decide)

/-- C4: closing is idempotent. `close` is a total function on session states
(it never raises), and a second `close` leaves the state produced by the
first one unchanged, whatever the mode. -/
theorem claim_C4 (s : Session) : Redlite.close (Redlite.close s) = Redlite.close s := by
  unfold Redlite.close
  split_ifs <;> simp_all

/-- C5: in every reachable session state, exactly one of "backend handle
present and session open" / "backend handle absent and session closed" holds
(openness here is literally what `_check_open` decides); the embedded handle
and the server connection are never both present; and `close`, the only
state-changing operation after construction, never changes the mode. -/
theorem claim_C5 (s : Session) (h : Reachable s) :
    ((s.backendPresent = true ∧ s.isOpen = true)
      ∨ (s.backendPresent = false ∧ s.isOpen = false))
    ∧ ¬(s.backendPresent = true ∧ s.isOpen = false)
    ∧ ¬(s.backendPresent = false ∧ s.isOpen = true)
    ∧ ¬(s.handle.isSome = true ∧ s.redis.isSome = true)
    ∧ (Redlite.close s).mode = s.mode := by
  refine ⟨?_, ?_, ?_, reachable_not_both s h, close_mode s⟩ <;>
    rw [isOpen_eq_backendPresent] <;> cases s.backendPresent <;> simp

/-- C5 witness: the invariant at the state opened by `Redlite(":memory:")`. -/
theorem claim_C5_witness :
    ((openEmb.backendPresent = true ∧ openEmb.isOpen = true)
      ∨ (openEmb.backendPresent = false ∧ openEmb.isOpen = false))
    ∧ ¬(openEmb.handle.isSome = true ∧ openEmb.redis.isSome = true) := by
  have hr : Reachable openEmb := Reachable.init testEnv ":memory:" 64 openEmb (by decide)
  exact ⟨(claim_C5 openEmb hr).1, (claim_C5 openEmb hr).2.2.2.1⟩

/-- C6: construction classifies the connection string. A `redis://` or
`rediss://` url opens a server-mode session (and the cache parameter is
ignored: construction is the same function of the environment for any two
cache values); the exact string ":memory:" opens an embedded session from
`redlite_open_memory`; any other string opens an embedded session from
`redlite_open_with_cache` at that path with the given cache size. -/
theorem claim_C6 (env : OpenEnv) :
    (∀ url c1 c2, (pyStartsWith url "redis://" = true ∨ pyStartsWith url "rediss://" = true) →
        Redlite.init env url c1 = Redlite.init env url c2
        ∧ (env.hasRedis = true →
            Redlite.init env url c1
              = .ok { url := url, mode := .server, handle := none,
                      redis := some (env.fromUrl url) }))
    ∧ (∀ c h, env.openMemory = some h →
        Redlite.init env ":memory:" c
          = .ok { url := ":memory:", mode := .embedded, handle := some h, redis := none })
    ∧ (∀ url c h, pyStartsWith url "redis://" = false → pyStartsWith url "rediss://" = false →
        url ≠ ":memory:" → env.openWithCache url c = some h →
        Redlite.init env url c
          = .ok { url := url, mode := .embedded, handle := some h, redis := none }) := by
  refine ⟨?_, ?_, ?_⟩
  · intro url c1 c2 hpre
    have hcond : (pyStartsWith url "redis://" || pyStartsWith url "rediss://") = true := by
      rcases hpre with h | h <;> simp [h]
    constructor
    · simp [Redlite.init, hcond]
    · intro hr
      simp [Redlite.init, hcond, hr]
  · intro c h hm
    have h1 : pyStartsWith ":memory:" "redis://" = false := by decide
    have h2 : pyStartsWith ":memory:" "rediss://" = false := by decide
    simp [Redlite.init, h1, h2, hm]
  · intro url c h h1 h2 h3 h4
    simp [Redlite.init, h1, h2, h3, h4]

/-- C6 witness: one url of each class, in an environment where every backend
opens successfully. -/
theorem claim_C6_witness :
    Redlite.init testEnv "redis://localhost:6379" 64
      = .ok { url := "redis://localhost:6379", mode := .server, handle := none,
              redis := some 7 }
    ∧ Redlite.init testEnv ":memory:" 64
      = .ok { url := ":memory:", mode := .embedded, handle := some 1, redis := none }
    ∧ Redlite.init testEnv "/tmp/db.db" 64
      = .ok { url := "/tmp/db.db", mode := .embedded, handle := some 2, redis := none } :=
  ⟨((claim_C6 testEnv).1 "redis://localhost:6379" 64 64 (.inl (by decide))).2 rfl,
   (claim_C6 testEnv).2.1 64 1 rfl,
   (claim_C6 testEnv).2.2 "/tmp/db.db" 64 2 (by decide) (by decide) (by decide) rfl⟩

/-- C3: every modelled command-surface operation on a session whose backend
handle is absent fails with the connection-closed `RedliteError` raised by
`_check_open`, and the empty call trace shows that no backend call is made;
the statement covers both modes since it holds for every closed session. -/
theorem claim_C3 {α : Type} (s : Session) (h : s.isOpen = false) (b : Backend α)
    (key : String) (value : PyValue) (ex px : Option Int) (nx xx : Bool)
    (keys : List String) (hmapping hkwargs : List (String × PyValue))
    (values : List PyValue) (zmapping : List (ZKey × α)) (zkwargs : List (String × α)) :
    Redlite.get s b key = ([], .error (.redliteError (closedMsg s.mode)))
    ∧ Redlite.set s b key value ex px nx xx = ([], .error (.redliteError (closedMsg s.mode)))
    ∧ Redlite.delete s b keys = ([], .error (.redliteError (closedMsg s.mode)))
    ∧ Redlite.hset s b key hmapping hkwargs = ([], .error (.redliteError (closedMsg s.mode)))
    ∧ Redlite.lpush s b key values = ([], .error (.redliteError (closedMsg s.mode)))
    ∧ Redlite.zadd s b key zmapping zkwargs = ([], .error (.redliteError (closedMsg s.mode)))
    ∧ Redlite.ttl s b key = ([], .error (.redliteError (closedMsg s.mode)))
    ∧ Redlite.pttl s b key = ([], .error (.redliteError (closedMsg s.mode))) := by
  have hc := check_open_closed s h
  refine ⟨?_, ?_, ?_, ?_, ?_, ?_, ?_, ?_⟩ <;>
    simp [Redlite.get, Redlite.set, Redlite.delete, Redlite.hset, Redlite.lpush,
          Redlite.zadd, Redlite.ttl, Redlite.pttl, hc]

/-- C3 witness: GET and SET on a closed embedded session fail closed with no
backend call. -/
theorem claim_C3_witness :
    closedEmb.isOpen = false
    ∧ Redlite.get closedEmb baseBackend "k"
        = ([], .error (.redliteError (closedMsg closedEmb.mode)))
    ∧ Redlite.set closedEmb baseBackend "k" (.str "v") none none false false
        = ([], .error (.redliteError (closedMsg closedEmb.mode))) :=
  ⟨by decide,
   (claim_C3 closedEmb (by decide) baseBackend "k" (.str "v") none none false false
      [] [] [] [] [] []).1,
   (claim_C3 closedEmb (by decide) baseBackend "k" (.str "v") none none false false
      [] [] [] [] [] []).2.1⟩

/-- C8: with the spec-modelled native TTL command, `ttl`/`pttl` on an open
embedded session report -1 for a present key with no expiry and -2 for a
missing key; the two sentinels are distinct; the client returns any backend
value other than -3 unchanged and raises the pending backend error exactly
for the error code -3. -/
theorem claim_C8 {α : Type} (s : Session) (hm : s.mode = .embedded) (ho : s.isOpen = true)
    (b : Backend α) (db dbms : List (String × Option Int)) (key : String)
    (hb : b.ettl key = ttlModel db key) (hbp : b.epttl key = ttlModel dbms key) :
    (lookupD db key = some none → (Redlite.ttl s b key).2 = .ok (-1))
    ∧ (lookupD db key = none → (Redlite.ttl s b key).2 = .ok (-2))
    ∧ (lookupD dbms key = some none → (Redlite.pttl s b key).2 = .ok (-1))
    ∧ (lookupD dbms key = none → (Redlite.pttl s b key).2 = .ok (-2))
    ∧ ((-1 : Int) ≠ -2)
    ∧ (∀ (b2 : Backend α) (r : Int), b2.ettl key = r → r ≠ -3 →
        (Redlite.ttl s b2 key).2 = .ok r)
    ∧ (∀ (b2 : Backend α) (msg : String), b2.ettl key = -3 → b2.lastError = some msg →
        (Redlite.ttl s b2 key).2 = .error (.redliteError msg))
    ∧ (∀ (b2 : Backend α) (r : Int), b2.epttl key = r → r ≠ -3 →
        (Redlite.pttl s b2 key).2 = .ok r)
    ∧ (∀ (b2 : Backend α) (msg : String), b2.epttl key = -3 → b2.lastError = some msg →
        (Redlite.pttl s b2 key).2 = .error (.redliteError msg)) := by
  have hc := check_open_isOpen s ho
  have hns : ¬ s.mode = Mode.server := by rw [hm]; simp
  refine ⟨?_, ?_, ?_, ?_, by decide, ?_, ?_, ?_, ?_⟩
  · intro hdb; simp [Redlite.ttl, hc, hns, hb, ttlModel, hdb]
  · intro hdb; simp [Redlite.ttl, hc, hns, hb, ttlModel, hdb]
  · intro hdb; simp [Redlite.pttl, hc, hns, hbp, ttlModel, hdb]
  · intro hdb; simp [Redlite.pttl, hc, hns, hbp, ttlModel, hdb]
  · intro b2 r hr hr3; simp [Redlite.ttl, hc, hns, hr, hr3]
  · intro b2 msg h3 hl; simp [Redlite.ttl, hc, hns, h3, check_error, hl]
  · intro b2 r hr hr3; simp [Redlite.pttl, hc, hns, hr, hr3]
  · intro b2 msg h3 hl; simp [Redlite.pttl, hc, hns, h3, check_error, hl]

/-- A backend whose TTL responses come from the spec-modelled engine with one
stored key "noexp" that has no expiry. -/
def ttlBackend : Backend Int :=
  { baseBackend with
    ettl := fun k => ttlModel [("noexp", none)] k,
    epttl := fun k => ttlModel [("noexp", none)] k }

/-- C8 witness: the no-expiry key reports -1 and a missing key reports -2. -/
theorem claim_C8_witness :
    (Redlite.ttl openEmb ttlBackend "noexp").2 = .ok (-1)
    ∧ (Redlite.ttl openEmb ttlBackend "missing").2 = .ok (-2) :=
  ⟨(claim_C8 openEmb rfl (by decide) ttlBackend [("noexp", none)] [("noexp", none)]
      "noexp" rfl rfl).1 (by decide),
   (claim_C8 openEmb rfl (by decide) ttlBackend [("noexp", none)] [("noexp", none)]
      "missing" rfl rfl).2.1 (by decide)⟩

/-- C10 counterexample: the claim says any px below 1000 yields ttl 0, but
Python floor division sends px = -1 to ttl -1: the backend is invoked with
ttl -1, which is below 1000 yet not 0. -/
theorem claim_C10_counterexample :
    (Redlite.set openEmb baseBackend "k" (.str "v") none (some (-1)) false false).1
      = [Call.eset "k" (encode_value (.str "v")) (-1)]
    ∧ ((-1 : Int) < 1000) ∧ ((-1 : Int) ≠ 0) := by
  refine ⟨by decide, by decide, by decide⟩

/-- C10 (amended): in embedded mode, `set` invokes the backend exactly once,
with the encoded value and a ttl of `ex` when `ex` is given, otherwise
`px` floor-divided by 1000 when `px` is given (so any px in [0, 1000) yields
ttl 0), otherwise 0; and the `nx`/`xx` flags affect neither the backend
invocation nor the returned value. -/
theorem claim_C10_amended {α : Type} (s : Session) (hm : s.mode = .embedded)
    (ho : s.isOpen = true) (b : Backend α) (key : String) (value : PyValue)
    (ex px : Option Int) (nx xx : Bool) :
    (Redlite.set s b key value ex px nx xx).1
      = [Call.eset key (encode_value value) (Redlite.setTtlArg ex px)]
    ∧ (∀ e, ex = some e → Redlite.setTtlArg ex px = e)
    ∧ (∀ p, ex = none → px = some p → Redlite.setTtlArg ex px = Int.fdiv p 1000)
    ∧ (ex = none → px = none → Redlite.setTtlArg ex px = 0)
    ∧ (∀ p, ex = none → px = some p → 0 ≤ p → p < 1000 → Redlite.setTtlArg ex px = 0)
    ∧ Redlite.set s b key value ex px nx xx = Redlite.set s b key value ex px false false := by
  have hc := check_open_isOpen s ho
  have hns : ¬ s.mode = Mode.server := by rw [hm]; simp
  refine ⟨?_, ?_, ?_, ?_, ?_, ?_⟩
  · simp [Redlite.set, hc, hns]
  · intro e he; simp [Redlite.setTtlArg, he]
  · intro p he hp; simp [Redlite.setTtlArg, he, hp]
  · intro he hp; simp [Redlite.setTtlArg, he, hp]
  · intro p he hp h0 h1000
    simp only [Redlite.setTtlArg, he, hp]
    rw [Int.fdiv_eq_ediv _ (by norm_num)]
    exact Int.ediv_eq_zero_of_lt h0 h1000
  · simp [Redlite.set, hc, hns]

/-- C10 witness: with px = 500 the backend receives ttl 0 even with the nx
and xx flags set. -/
theorem claim_C10_amended_witness :
    (Redlite.set openEmb baseBackend "k" (.str "v") none (some 500) true true).1
      = [Call.eset "k" (encode_value (.str "v")) (Redlite.setTtlArg none (some 500))]
    ∧ Redlite.setTtlArg none (some 500) = 0 :=
  ⟨(claim_C10_amended openEmb rfl (by decide) baseBackend "k" (.str "v")
      none (some 500) true true).1,
   (claim_C10_amended openEmb rfl (by decide) baseBackend "k" (.str "v")
      none (some 500) true true).2.2.2.2.1 500 rfl rfl (by decide) (by decide)⟩

/-- C1 counterexample: the claim fails on `get`. With the backend in the state
right after a failing call — NULL payload returned and an error message
pending on the `redlite_last_error` channel (as `check_error` would observe
and raise) — the embedded `get` path never consults the error channel and
returns the default value `None` as a success instead of re-raising. -/
theorem claim_C1_counterexample :
    (Redlite.get openEmb errBackend "k").2 = .ok none
    ∧ check_error errBackend.lastError
        = .error (.redliteError
            "WRONGTYPE Operation against a key holding the wrong kind of value") := by
  exact ⟨rfl, rfl⟩

/-- C1 (amended): on an open embedded session with a pending backend error
message, the operations that receive an integer status (`set`, `delete`,
`hset`, `lpush`, `zadd`) re-raise the backend message as a `RedliteError`
whenever the status is negative, and `ttl`/`pttl` do so for the error code
-3; but the byte-payload read `get` never consults the error channel and
returns whatever `bytes_to_python` makes of the returned payload (None for a
NULL or empty payload), so a backend failure there surfaces as a default
value rather than an error. -/
theorem claim_C1_amended {α : Type} (s : Session) (hm : s.mode = .embedded)
    (ho : s.isOpen = true) (b : Backend α) (msg : String)
    (herr : b.lastError = some msg) :
    (∀ key value ex px nx xx, b.eset key (encode_value value) (Redlite.setTtlArg ex px) < 0 →
        (Redlite.set s b key value ex px nx xx).2 = .error (.redliteError msg))
    ∧ (∀ keys, keys.isEmpty = false → b.edel keys < 0 →
        (Redlite.delete s b keys).2 = .error (.redliteError msg))
    ∧ (∀ key mapping kwargs, (dictOf (mapping ++ kwargs)).isEmpty = false →
        b.ehset key ((dictOf (mapping ++ kwargs)).map (fun p => p.1))
          (make_bytes_array ((dictOf (mapping ++ kwargs)).map (fun p => encode_value p.2))) < 0 →
        (Redlite.hset s b key mapping kwargs).2 = .error (.redliteError msg))
    ∧ (∀ key values, values.isEmpty = false →
        b.elpush key (make_bytes_array (values.map encode_value)) < 0 →
        (Redlite.lpush s b key values).2 = .error (.redliteError msg))
    ∧ (∀ key (mapping : List (ZKey × α)) (kwargs : List (String × α)),
        (dictOf (mapping ++ kwargs.map (fun p => (ZKey.str p.1, p.2)))).isEmpty = false →
        b.ezadd key ((dictOf (mapping ++ kwargs.map (fun p => (ZKey.str p.1, p.2)))).map
          (fun p => (p.2, encode_value p.1.toValue))) < 0 →
        (Redlite.zadd s b key mapping kwargs).2 = .error (.redliteError msg))
    ∧ (∀ key, b.ettl key = -3 → (Redlite.ttl s b key).2 = .error (.redliteError msg))
    ∧ (∀ key, b.epttl key = -3 → (Redlite.pttl s b key).2 = .error (.redliteError msg))
    ∧ (∀ key, (Redlite.get s b key).2 = .ok (bytes_to_python (b.eget key))) := by
  have hc := check_open_isOpen s ho
  have hns : ¬ s.mode = Mode.server := by rw [hm]; simp
  refine ⟨?_, ?_, ?_, ?_, ?_, ?_, ?_, ?_⟩
  · intro key value ex px nx xx hneg
    simp [Redlite.set, hc, hns, Redlite.neg_checked, hneg, check_error, herr, Except.map]
  · intro keys hne hneg
    simp [Redlite.delete, hc, hns, hne, Redlite.neg_checked, hneg, check_error, herr]
  · intro key mapping kwargs hne hneg
    simp [Redlite.hset, hc, hns, hne, Redlite.neg_checked, hneg, check_error, herr]
  · intro key values hne hneg
    simp [Redlite.lpush, hc, hns, hne, Redlite.neg_checked, hneg, check_error, herr]
  · intro key mapping kwargs hne hneg
    simp [Redlite.zadd, hc, hns, hne, Redlite.neg_checked, hneg, check_error, herr]
  · intro key h3
    simp [Redlite.ttl, hc, hns, h3, check_error, herr]
  · intro key h3
    simp [Redlite.pttl, hc, hns, h3, check_error, herr]
  · intro key
    simp [Redlite.get, hc, hns]

/-- C1 witness: the raising path at SET and the masking path at GET, on the
failed-backend state. -/
theorem claim_C1_amended_witness :
    (Redlite.set openEmb errBackend "k" (.str "v") none none false false).2
      = .error (.redliteError
          "WRONGTYPE Operation against a key holding the wrong kind of value")
    ∧ (Redlite.get openEmb errBackend "k").2
      = .ok (bytes_to_python (errBackend.eget "k")) :=
  ⟨(claim_C1_amended openEmb rfl (by decide) errBackend _ rfl).1
      "k" (.str "v") none none false false (by decide),
   (claim_C1_amended openEmb rfl (by decide) errBackend _ rfl).2.2.2.2.2.2.2 "k"⟩

/-- C7: when the router is given ZADD in the (key, list-of-[score, member])
form and the conversion succeeds with mapping M, then (i) the router performs
exactly the invocation `zadd(key, M)` — same backend calls, same result, so
the reshaping changes only the calling convention; (ii) M maps each member to
the score of the last pair that wrote it (last writer wins); and (iii) every
member key of M is text: binary member identifiers were decoded first. -/
theorem claim_C7 {α : Type} (s : Session) (b : Backend α) (key : String)
    (items : List (ZItem α)) (M : List (ZKey × α)) (h : zaddReshape items = .ok M) :
    runnerZadd s b key items = Redlite.zadd s b key M []
    ∧ (∀ k, lookupD M k = lastPairScore items k)
    ∧ (∀ p ∈ M, ∃ t, p.1 = ZKey.str t) := by
  refine ⟨?_, ?_, ?_⟩
  · simp [runnerZadd, h]
  · intro k
    have hrec := zaddReshapeAux_lookup items [] M h k
    cases hl : lastPairScore items k <;> simp only [hl] at hrec <;>
      simp [hrec, lookupD]
  · exact zaddReshapeAux_keys items [] M h (by simp)

/-- Items of a concrete ZADD pair list: the member "a" written twice (scores
1 then 3) around a binary member identifier for "b" (score 2). -/
def zItems : List (ZItem Int) :=
  [.pair 1 (.str "a"), .pair 2 (.bytes [98]), .pair 3 (.str "a")]

/-- C7 witness: the concrete pair list converts to the dict
[("a", 3), ("b", 2)] — last writer wins for "a", byte member decoded to "b" —
and the router's call equals `zadd` on that mapping. -/
theorem claim_C7_witness :
    zaddReshape zItems = .ok [(ZKey.str "a", 3), (ZKey.str "b", 2)]
    ∧ runnerZadd openEmb baseBackend "z" zItems
        = Redlite.zadd openEmb baseBackend "z" [(ZKey.str "a", 3), (ZKey.str "b", 2)] []
    ∧ lookupD [(ZKey.str "a", 3), (ZKey.str "b", 2)] (ZKey.str "a")
        = lastPairScore zItems (ZKey.str "a") := by
  have h : zaddReshape zItems = .ok [(ZKey.str "a", 3), (ZKey.str "b", 2)] := by decide
  exact ⟨h, (claim_C7 openEmb baseBackend "z" zItems _ h).1,
         (claim_C7 openEmb baseBackend "z" zItems _ h).2.1 (ZKey.str "a")⟩

theorem evalAttrs_delExistsMget :
    evalAttrs ["delete", "exists", "mget"] = .error (.attributeError "mget") := by decide

theorem evalAttrs_methodMap :
    evalAttrs methodMapCmds = .error (.attributeError "hgetall") := by decide

theorem routeCmd_no_valueError (cmdRaw msg : String) :
    routeCmd cmdRaw ≠ .error (.valueError msg) := by
  have hgc : pyGetattr "hset" = .ok "hset" := by decide
  have hgd : pyGetattr "hdel" = .ok "hdel" := by decide
  have hgf : pyGetattr "zadd" = .ok "zadd" := by decide
  have hgg : pyGetattr "zrem" = .ok "zrem" := by decide
  have hgh : pyGetattr "sadd" = .ok "sadd" := by decide
  have hgi : pyGetattr "srem" = .ok "srem" := by decide
  have hgj : pyGetattr "lpush" = .ok "lpush" := by decide
  have hgk : pyGetattr "rpush" = .ok "rpush" := by decide
  have hgb : pyGetattr "mset" = .error (.attributeError "mset") := by decide
  have hge : pyGetattr "hmget" = .error (.attributeError "hmget") := by decide
  simp only [routeCmd]
  by_cases h1 : pyLower cmdRaw = "del" ∨ pyLower cmdRaw = "exists" ∨ pyLower cmdRaw = "mget"
  · rw [if_pos h1, evalAttrs_delExistsMget]; simp
  rw [if_neg h1]
  by_cases h2 : pyLower cmdRaw = "mset"
  · rw [if_pos h2, hgb]; simp
  rw [if_neg h2]
  by_cases h3 : pyLower cmdRaw = "hset"
  · rw [if_pos h3, hgc]; simp
  rw [if_neg h3]
  by_cases h4 : pyLower cmdRaw = "hdel"
  · rw [if_pos h4, hgd]; simp
  rw [if_neg h4]
  by_cases h5 : pyLower cmdRaw = "hmget"
  · rw [if_pos h5, hge]; simp
  rw [if_neg h5]
  by_cases h6 : pyLower cmdRaw = "zadd"
  · rw [if_pos h6, hgf]; simp
  rw [if_neg h6]
  by_cases h7 : pyLower cmdRaw = "zrem"
  · rw [if_pos h7, hgg]; simp
  rw [if_neg h7]
  by_cases h8 : pyLower cmdRaw = "sadd" ∨ pyLower cmdRaw = "srem"
  · rw [if_pos h8]
    by_cases hx : pyLower cmdRaw = "sadd"
    · rw [if_pos hx, hgh]; simp
    · rw [if_neg hx, hgi]; simp
  rw [if_neg h8]
  by_cases h9 : pyLower cmdRaw = "lpush" ∨ pyLower cmdRaw = "rpush"
  · rw [if_pos h9]
    by_cases hx : pyLower cmdRaw = "lpush"
    · rw [if_pos hx, hgj]; simp
    · rw [if_neg hx, hgk]; simp
  rw [if_neg h9, evalAttrs_methodMap]
  simp

/-- C9 (code_bug): the dispatch of `_execute_cmd` eagerly evaluates the
attribute accesses its branches contain, and `method_map` (python_runner.py
lines 215-270) references `db.hgetall`, `db.zrange`, `db.zrevrange` — while
the del/exists/mget branch references `db.mget` — attributes the `Redlite`
class never defines. So an unrecognized command such as "bogus" raises
`AttributeError` for "hgetall" while the dict is being built, before the
membership check on line 272; a recognized `method_map` name such as "get"
crashes the same way instead of routing; and the
`ValueError("Unknown command: ...")` that line 273 — and the claim — intend
for unrecognized names is unreachable for every input. -/
theorem claim_C9 :
    routeCmd "bogus" = .error (.attributeError "hgetall")
    ∧ routeCmd "get" = .error (.attributeError "hgetall")
    ∧ routeCmd "mget" = .error (.attributeError "mget")
    ∧ routeCmd "hset" = .ok .hsetCmd
    ∧ (∀ cmdRaw msg, routeCmd cmdRaw ≠ .error (.valueError msg)) :=
  ⟨by decide, by decide, by decide, by decide, routeCmd_no_valueError⟩
